import Mathlib

set_option maxHeartbeats 1000000

/-! # Mixed-precision optimizer wrapper: shallow embedding

Embedding of `open_seq2seq/optimizers/mp_wrapper.py`.  Tensor element
values are modelled exactly: finite values as rationals, together with
the two infinities and NaN, so that the wrapper's treatment of
non-finite gradients is observable.  TensorFlow graph construction is
read operationally: each wrapper method is a function on an explicit
variable store, and externally injected behaviour (the wrapped base
optimizer, automatic differentiation of a registered regularizer) is a
function parameter. -/

/-- Tensor element dtypes that the wrapper distinguishes
(`var.dtype.base_dtype == tf.float16` versus everything else). -/
inductive DType where
  | fp16
  | fp32
  deriving DecidableEq

/-- One tensor element: an exact finite value, a signed infinity
(`neg = true` is negative infinity), or NaN. -/
inductive Val where
  | finite (q : ℚ)
  | inf (neg : Bool)
  | nan
  deriving DecidableEq

/-- `true` exactly on finite elements. -/
def Val.isFinite : Val → Bool
  | .finite _ => true
  | _ => false

/-- `true` exactly on the two infinities (`tf.is_inf`). -/
def Val.isInf : Val → Bool
  | .inf _ => true
  | _ => false

/-- Multiplication of tensor elements (IEEE sign/NaN rules at the
value level; finite values multiply exactly). -/
def Val.mul : Val → Val → Val
  | .nan, _ => .nan
  | _, .nan => .nan
  | .finite a, .finite b => .finite (a * b)
  | .inf s, .finite b => if b = 0 then .nan else .inf (xor s (decide (b < 0)))
  | .finite a, .inf s => if a = 0 then .nan else .inf (xor s (decide (a < 0)))
  | .inf s, .inf t => .inf (xor s t)

/-- Addition of tensor elements. -/
def Val.add : Val → Val → Val
  | .nan, _ => .nan
  | _, .nan => .nan
  | .finite a, .finite b => .finite (a + b)
  | .inf s, .finite _ => .inf s
  | .finite _, .inf s => .inf s
  | .inf s, .inf t => if s = t then .inf s else .nan

/-- Absolute value of a tensor element. -/
def Val.absv : Val → Val
  | .finite q => .finite |q|
  | .inf _ => .inf false
  | .nan => .nan

/-- Maximum of two tensor elements, NaN-propagating, with
`+inf`/`-inf` as top/bottom (`tf.maximum` on reduced maxima). -/
def Val.maxv : Val → Val → Val
  | .nan, _ => .nan
  | _, .nan => .nan
  | .inf false, _ => .inf false
  | _, .inf false => .inf false
  | .inf true, y => y
  | x, .inf true => x
  | .finite a, .finite b => .finite (max a b)

/-- A tensor, flattened to its list of elements. -/
abbrev Tensor := List Val

/-- Elementwise tensor addition. -/
def Tensor.add (a b : Tensor) : Tensor := List.zipWith Val.add a b

/-- A gradient slot as produced by `compute_gradients`: absent
(Python `None`), a dense tensor, or a `tf.IndexedSlices` sparse
gradient (value list, index list, dense shape). -/
inductive Grad where
  | missing
  | dense (values : Tensor)
  | indexedSlices (values : Tensor) (indices : List ℕ) (denseShape : List ℕ)
  deriving DecidableEq

/-- All element values a gradient slot carries (a missing gradient
contributes nothing; a sparse gradient contributes its value list). -/
def Grad.valueList : Grad → Tensor
  | .missing => []
  | .dense vs => vs
  | .indexedSlices vs _ _ => vs

/-- A TensorFlow variable as the wrapper observes it: its graph name
(ending in an output suffix such as `:0`), element dtype, and
trainability flag. -/
structure Variable where
  name : String
  dtype : DType
  trainable : Bool
  deriving DecidableEq

/-- The runtime variable store: variable name to current tensor value. -/
abbrev Store := List (String × Tensor)

/-- Read a variable's current value (an unbound name reads as the
empty tensor; every variable a run touches is bound). -/
def Store.get : Store → String → Tensor
  | [], _ => []
  | (k, v) :: rest, n => if k = n then v else Store.get rest n

/-- Write a variable (overwrite in place, or bind a new name). -/
def Store.set : Store → String → Tensor → Store
  | [], n, t => [(n, t)]
  | (k, v) :: rest, n, t =>
    if k = n then (k, t) :: rest else (k, v) :: Store.set rest n t

/-- `_scale_grads` (mp_wrapper.py lines 162-172): multiply every
present gradient by `scale`, keeping order and variables; a sparse
gradient has only its value component scaled, its indices and dense
shape rebuilt unchanged; a `None` gradient passes through. -/
def scale_grads (grads_and_vars : List (Grad × Variable)) (scale : Val) :
    List (Grad × Variable) :=
  grads_and_vars.map fun gv =>
    match gv.1 with
    | .missing => (.missing, gv.2)
    | .dense vs => (.dense (vs.map (fun v => Val.mul v scale)), gv.2)
    | .indexedSlices vs idx shp =>
      (.indexedSlices (vs.map (fun v => Val.mul v scale)) idx shp, gv.2)

/-! ## Loss scale controller and gradient health check

`mp_wrapper.py` imports `AutomaticLossScaler` from
`automatic_loss_scaler.py`, which is not part of the sources; the two
members the wrapper uses (`check_grads` and the scaler's
`loss_scale`/`update_op`) are modelled from the spec. -/

/-- All gradient element values of a batch, in order (a missing
gradient contributes nothing, a sparse gradient its value list). -/
def gradValues (grads_and_vars : List (Grad × Variable)) : Tensor :=
  grads_and_vars.foldr (fun gv acc => gv.1.valueList ++ acc) []

/-- Modelled from the spec: `AutomaticLossScaler.check_grads`
(automatic_loss_scaler.py is not under src/).  Spec 4.2: given the
step's (gradient, parameter) pairs, return `(has_nonfinite,
max_abs_gradient)` aggregated across all gradients, missing gradients
contributing nothing, sparse gradients checked on their value list.
Pure, no side effects. -/
def check_grads (grads_and_vars : List (Grad × Variable)) : Bool × Val :=
  let vals := gradValues grads_and_vars
  (vals.any (fun v => !v.isFinite),
   vals.foldl (fun m v => Val.maxv m v.absv) (Val.finite 0))

/-- Modelled from the spec: the Loss Scale Controller's state
(automatic_loss_scaler.py is not under src/).  Spec 4.1: a positive
scalar scale plus internal counters for the growth/backoff policy. -/
structure ScalerState where
  scale : ℚ
  goodSteps : ℕ
  growthInterval : ℕ
  deriving DecidableEq

/-- Modelled from the spec: the Loss Scale Controller's update
operation (automatic_loss_scaler.py is not under src/).  Spec 4.1
policy, one representative instance: on overflow the scale is halved
(clamped to a minimum of 1) and the healthy-step counter resets; after
`growthInterval` consecutive healthy steps the scale doubles.  Mutates
only its own state. -/
def scalerUpdate (sc : ScalerState) (hasNonfinite : Bool) (amax : Val) :
    ScalerState :=
  if hasNonfinite || amax.isInf then
    { sc with scale := max (sc.scale / 2) 1, goodSteps := 0 }
  else if sc.goodSteps + 1 ≥ sc.growthInterval then
    { sc with scale := sc.scale * 2, goodSteps := 0 }
  else
    { sc with goodSteps := sc.goodSteps + 1 }

/-! ## Casts

`tf.cast` between float16 and float32 is external library behaviour;
at the exact-value level the upward cast is the identity (every
binary16 value is a binary32 value, see `f16Representable_imp_f32`),
and the downward cast is IEEE 754 round-to-nearest-even with overflow
to infinity, modelled on rationals below. -/

/-- `tf.cast(..., tf.float32)` applied to a float16 tensor is exact:
modelled as the identity on exact element values. -/
def castUpTensor (t : Tensor) : Tensor := t

/-- `tf.cast(grad, tf.float32)` on a float16 pair's gradient (line
59) is exact: the identity on exact values, preserving the gradient's
kind, for dense and `IndexedSlices` gradients.  On a missing (`None`)
gradient the source raises at this call; the model has no error
outcome and leaves `.missing` unchanged, so every theorem about the
float16 promotion path restricts itself to pairs that carry a
gradient. -/
def castUpGrad (g : Grad) : Grad := g

/-- `tf.cast` from float16 to float32 on one exact element value: the
identity, since every finite binary16 value is exactly a binary32
value (`f16Representable_imp_f32`). -/
def castF16toF32 (q : ℚ) : ℚ := q

/-- Round a rational to the nearest integer, ties to even (the IEEE
754 default rounding used by `tf.cast` to float16). -/
def rne (x : ℚ) : ℤ :=
  if x - ⌊x⌋ < 1 / 2 then ⌊x⌋
  else if x - ⌊x⌋ > 1 / 2 then ⌊x⌋ + 1
  else if 2 ∣ ⌊x⌋ then ⌊x⌋ else ⌊x⌋ + 1

/-- Smallest `E` (scanning up from `e`, at most `n` steps) with
`a < 2 ^ (E + 1)`; the binade exponent of `a` when the scan covers it. -/
def findExpAux (a : ℚ) : ℕ → ℤ → ℤ
  | 0, e => e
  | n + 1, e => if a < 2 ^ (e + 1) then e else findExpAux a n (e + 1)

/-- The binary16 unit in the last place at magnitude `a` (for
`a > 0`): `2 ^ (-24)` below the normal range, `2 ^ (E - 10)` in the
binade `[2 ^ E, 2 ^ (E + 1))`. -/
def ulp16 (a : ℚ) : ℚ :=
  if a < 2 ^ (-14 : ℤ) then 2 ^ (-24 : ℤ)
  else 2 ^ (findExpAux a 30 (-14) - 10)

/-- Modelled from the spec: `tf.cast` from float32 to float16
(external library semantics, IEEE 754 binary32 to binary16
conversion, round to nearest, ties to even), on exact rational
values.  `Option.none` is overflow to infinity: magnitudes that round
(in unbounded exponent range) above 65504, the largest finite
binary16 value, overflow. -/
def castF32toF16 (q : ℚ) : Option ℚ :=
  if q = 0 then some 0
  else
    let r : ℚ := (rne (|q| / ulp16 |q|) : ℚ) * ulp16 |q|
    if r > 65504 then Option.none
    else some (if q < 0 then -r else r)

/-- Elementwise float32-to-float16 cast on tensor elements. -/
def Val.cast16 : Val → Val
  | .finite q =>
    match castF32toF16 q with
    | some r => .finite r
    | Option.none => .inf (decide (q < 0))
  | .inf s => .inf s
  | .nan => .nan

/-- `tf.cast(var, tf.float16)` on a float32 tensor. -/
def Tensor.cast16 (t : Tensor) : Tensor := t.map Val.cast16

/-! ## Regularization redirector -/

/-- A user-supplied regularization function together with its
derivative.  The penalty is what the regularizer returns on a weight
tensor; `grad` is the external automatic-differentiation result
`tf.gradients(apply_regularization(f, [v]), v)[0]` as a function of
the value of `v`. -/
structure RegFn where
  penalty : Tensor → Val
  grad : Tensor → Tensor

/-- `mp_regularizer_wrapper` (mp_wrapper.py lines 150-159): the inner
`func_wrapper` applied to a weights variable with current value
`wval`.  The ambient TensorFlow collection `REGULARIZATION_FUNCTIONS`
is passed and returned explicitly; `tf.add_to_collection` appends.
Float16 weights are recorded and get no penalty (`None`); any other
weights get the regularizer applied normally. -/
def mp_regularizer_wrapper (regularizer : RegFn) (weights : Variable)
    (wval : Tensor) (collection : List (Variable × RegFn)) :
    Option Val × List (Variable × RegFn) :=
  if weights.dtype = DType.fp16 then
    (Option.none, collection ++ [(weights, regularizer)])
  else
    (some (regularizer.penalty wval), collection)

/-! ## The wrapper's state and `compute_gradients` -/

/-- Mutable state of one `MixedPrecisionOptimizerWrapper` instance:
the `_fp32_to_fp16` dict (float32 shadow name to float16 variable),
how many times the `FP32-master-copy` variable scope has been entered
(TensorFlow uniquifies the scope's name scope per entry), and every
shadow variable created so far. -/
structure WrapperState where
  fp32_to_fp16 : List (String × Variable)
  scopeUses : ℕ
  shadowsCreated : List Variable
  deriving DecidableEq

/-- A fresh wrapper instance (`__init__`, line 19: empty dict). -/
def initWrapperState : WrapperState :=
  { fp32_to_fp16 := [], scopeUses := 0, shadowsCreated := [] }

/-- `var.name.split(':')[0]`: the variable name up to its first
output suffix separator. -/
def stripDevice (n : String) : String :=
  String.mk (n.toList.takeWhile (fun c => c ≠ ':'))

/-- Name-scope prefix produced by entering
`tf.variable_scope('FP32-master-copy')` for the `uses`-th time
(TensorFlow appends `_1`, `_2`, ... on re-entry). -/
def scopeName (uses : ℕ) : String :=
  if uses = 0 then "FP32-master-copy" else "FP32-master-copy_" ++ toString uses

/-- Python dict assignment on an association list: overwrite the first
binding in place, or append a new one. -/
def mapSet (m : List (String × Variable)) (k : String) (v : Variable) :
    List (String × Variable) :=
  match m with
  | [] => [(k, v)]
  | (k', v') :: rest =>
    if k' = k then (k', v) :: rest else (k', v') :: mapSet rest k v

/-- Python dict lookup on an association list built by `mapSet`. -/
def mapFind (m : List (String × Variable)) (k : String) : Option Variable :=
  match m with
  | [] => Option.none
  | (k', v') :: rest => if k' = k then some v' else mapFind rest k

/-- Lookup in the `reg_funcs` dict of line 40
(`dict(map(lambda x: (x[0].name, x[1]), reg_var_funcs))`); on
duplicate names a Python dict keeps the last binding. -/
def regFind (funcs : List (String × RegFn)) (n : String) : Option RegFn :=
  (funcs.reverse.find? (fun p => p.1 == n)).map (fun p => p.2)

/-- Add a row elementwise into a flat tensor starting at offset
`off`, leaving every other position unchanged. -/
def addAt (acc : Tensor) (off : ℕ) (row : Tensor) : Tensor :=
  acc.take off ++
    List.zipWith Val.add ((acc.drop off).take row.length) row ++
    acc.drop (off + row.length)

/-- Scatter-add the rows of `values` (row `i` spans positions
`i * r` to `i * r + r` of the flat value list) into `acc` at the
dense rows named by `indices`, summing rows with duplicate indices. -/
def densifyAux (values : Tensor) (r : ℕ) : List ℕ → ℕ → Tensor → Tensor
  | [], _, acc => acc
  | idx :: rest, i, acc =>
    densifyAux values r rest (i + 1)
      (addAt acc (idx * r) ((values.drop (i * r)).take r))

/-- TensorFlow's implicit `IndexedSlices`-to-dense conversion: the
value rows are scatter-added (summing duplicate indices) into a zero
tensor of the dense shape, whose first dimension indexes rows of size
`denseShape.tail.prod`.  Operator overloading performs this
conversion, with a warning, before adding a sparse gradient to a
dense tensor. -/
def densifyIxs (values : Tensor) (indices : List ℕ) (denseShape : List ℕ) :
    Tensor :=
  let r := denseShape.tail.prod
  densifyAux values r indices 0
    (List.replicate (denseShape.headD 0 * r) (Val.finite 0))

/-- The regularization gradient is added to the promoted float32
gradient (line 62, `fp32_grad += tf.gradients(...)`): elementwise for
a dense gradient; for an `IndexedSlices` gradient TensorFlow's
operator overloading first densifies the sparse gradient and the sum
is dense.  A missing gradient never reaches this addition in the
source: the cast at line 59 has already raised for it. -/
def Grad.addDense : Grad → Tensor → Grad
  | .dense vs, t => .dense (Tensor.add vs t)
  | .indexedSlices vs idx shp, t =>
    .dense (Tensor.add (densifyIxs vs idx shp) t)
  | .missing, _ => .missing

/-- The graph name of the float32 shadow created for a float16
variable inside the scope: scope prefix, the variable's name stripped
of its output suffix, and the new variable's own `:0` suffix. -/
def shadowName (scope : String) (var : Variable) : String :=
  scope ++ "/" ++ stripDevice var.name ++ ":0"

/-- The promotion loop of `compute_gradients` (lines 43-71), one pass
over the base optimizer's (gradient, variable) pairs inside the
`FP32-master-copy` scope.  For a float16 variable: create a fresh
float32 shadow variable named after it, non-trainable, initialized
from the variable's current value cast up; record the float16 variable
in the dict under the shadow's name; cast the gradient up; add the
registered regularizer's gradient with respect to the shadow when
there is one; emit the (promoted gradient, shadow) pair.  Any other
pair passes through unchanged. -/
def promotePairs (regFuncs : List (String × RegFn)) (scope : String) :
    List (Grad × Variable) → List (String × Variable) → List Variable →
    Store →
    List (Grad × Variable) × List (String × Variable) × List Variable × Store
  | [], m, created, store => ([], m, created, store)
  | (g, var) :: rest, m, created, store =>
    if var.dtype = DType.fp16 then
      let sname := shadowName scope var
      let fp32_var : Variable :=
        { name := sname, dtype := DType.fp32, trainable := false }
      let store1 := Store.set store sname (castUpTensor (Store.get store var.name))
      let m1 := mapSet m sname var
      let g1 := castUpGrad g
      let g2 :=
        match regFind regFuncs var.name with
        | some f => Grad.addDense g1 (f.grad (castUpTensor (Store.get store var.name)))
        | Option.none => g1
      let r := promotePairs regFuncs scope rest m1 (created ++ [fp32_var]) store1
      ((g2, fp32_var) :: r.1, r.2)
    else
      let r := promotePairs regFuncs scope rest m created store
      ((g, var) :: r.1, r.2)

/-- `MixedPrecisionOptimizerWrapper.compute_gradients` (lines 22-78).
`baseCompute` is the wrapped base optimizer's gradient computation as
a function of the (possibly scaled) loss; `regCollection` is the
ambient `REGULARIZATION_FUNCTIONS` collection.  Returns the promoted,
unscaled (gradient, variable) list together with the wrapper's new
state and the store extended with the created shadows. -/
def computeGradients (baseCompute : Val → List (Grad × Variable))
    (regCollection : List (Variable × RegFn)) (scaler : Option ScalerState)
    (loss : Val) (st : WrapperState) (store : Store) :
    List (Grad × Variable) × WrapperState × Store :=
  let lossS :=
    match scaler with
    | some sc => Val.mul loss (Val.finite sc.scale)
    | Option.none => loss
  let grads_and_vars_fp16 := baseCompute lossS
  let regFuncs := regCollection.map (fun p => (p.1.name, p.2))
  let scope := scopeName st.scopeUses
  let r := promotePairs regFuncs scope grads_and_vars_fp16
    st.fp32_to_fp16 st.shadowsCreated store
  let result :=
    match scaler with
    | some sc => scale_grads r.1 (Val.finite (1 / sc.scale))
    | Option.none => r.1
  (result,
   { fp32_to_fp16 := r.2.1, scopeUses := st.scopeUses + 1,
     shadowsCreated := r.2.2.1 },
   r.2.2.2)

/-! ## `apply_gradients` -/

/-- `apply_ops_wrapper` (lines 82-94): run the base optimizer's
update over the pairs, then, under a control dependency on that
update, assign to every float16 variable registered for a pair's
variable the updated float32 value cast down.  Each assign reads its
float32 variable as left by the update (the assigns write only
float16 destinations and are unordered among themselves). -/
def applyOpsWrapper (baseApply : List (Grad × Variable) → Store → Store)
    (m : List (String × Variable)) (grads_and_vars : List (Grad × Variable))
    (s : Store) : Store :=
  let s1 := baseApply grads_and_vars s
  grads_and_vars.foldl
    (fun acc gv =>
      match mapFind m gv.2.name with
      | some dst => Store.set acc dst.name (Tensor.cast16 (Store.get s1 gv.2.name))
      | Option.none => acc)
    s1

/-- `MixedPrecisionOptimizerWrapper.apply_gradients` (lines 80-106),
run-time reading of the built graph.  Without a loss scaler the update
and copy-back run directly.  With one, the gradients' health is
checked, the scaler update runs first (control dependency, line 101),
and then either nothing happens (`tf.no_op`, skip) or the update and
copy-back run, according to `should_skip_update`. -/
def applyGradients (baseApply : List (Grad × Variable) → Store → Store)
    (m : List (String × Variable)) (scaler : Option ScalerState)
    (grads_and_vars : List (Grad × Variable)) (s : Store) :
    Store × Option ScalerState :=
  match scaler with
  | Option.none => (applyOpsWrapper baseApply m grads_and_vars s, Option.none)
  | some sc =>
    let hc := check_grads grads_and_vars
    let should_skip_update := hc.2.isInf || hc.1
    let sc' := scalerUpdate sc hc.1 hc.2
    if should_skip_update then (s, some sc')
    else (applyOpsWrapper baseApply m grads_and_vars s, some sc')

/-- The float16 destinations the copy-back of `apply_ops_wrapper`
writes: for each pair, the registered float16 variable's name, if any. -/
def dstNames (m : List (String × Variable))
    (grads_and_vars : List (Grad × Variable)) : List String :=
  grads_and_vars.filterMap (fun gv => (mapFind m gv.2.name).map (fun v => v.name))

/-- The shadow names one promotion pass would create: one per float16
pair, in order. -/
def shadowNames (scope : String) (grads_and_vars : List (Grad × Variable)) :
    List String :=
  grads_and_vars.filterMap (fun p =>
    if p.2.dtype = DType.fp16 then some (shadowName scope p.2) else Option.none)

/-! ## Representable values -/

/-- The finite values exactly representable in IEEE 754 binary16: an
integer significand of magnitude below `2 ^ 11` times a power of two
no smaller than `2 ^ (-24)`, of magnitude at most 65504. -/
def isF16Representable (q : ℚ) : Prop :=
  ∃ k e : ℤ, q = (k : ℚ) * 2 ^ e ∧ |k| < 2 ^ 11 ∧ -24 ≤ e ∧ |q| ≤ 65504

/-- The finite values exactly representable in IEEE 754 binary32. -/
def isF32Representable (q : ℚ) : Prop :=
  ∃ k e : ℤ, q = (k : ℚ) * 2 ^ e ∧ |k| < 2 ^ 24 ∧ -149 ≤ e ∧
    |q| ≤ (2 ^ 24 - 1) * 2 ^ 104

/-! # Lemmas and claim theorems -/

/-! ## Rounding exactness (claim C9) -/

theorem rne_intCast (n : ℤ) : rne (n : ℚ) = n := by
  unfold rne; norm_num

theorem findExpAux_le (a : ℚ) (n : ℕ) (e : ℤ) (h : 2 ^ e ≤ a) :
    (2 : ℚ) ^ findExpAux a n e ≤ a := by
  induction n generalizing e with
  | zero => simpa [findExpAux]
  | succ n ih =>
    unfold findExpAux
    split
    · exact h
    · exact ih (e + 1) (le_of_not_lt (by assumption))

theorem div_zpow_int (k : ℤ) (e u : ℤ) (h : u ≤ e) :
    ((k : ℚ) * 2 ^ e) / 2 ^ u = ((k * 2 ^ (e - u).toNat : ℤ) : ℚ) := by
  have h2 : (2 : ℚ) ^ u ≠ 0 := zpow_ne_zero _ two_ne_zero
  rw [div_eq_iff h2]
  push_cast
  rw [mul_assoc, ← zpow_natCast (2 : ℚ) (e - u).toNat,
    Int.toNat_of_nonneg (sub_nonneg.mpr h), ← zpow_add₀ (two_ne_zero) (e - u) u]
  ring_nf

theorem exact_r (k : ℤ) (e u : ℤ) (h : u ≤ e) :
    ((rne (((k : ℚ) * 2 ^ e) / 2 ^ u) : ℚ)) * 2 ^ u = (k : ℚ) * 2 ^ e := by
  rw [div_zpow_int k e u h, rne_intCast, ← div_zpow_int k e u h]
  exact div_mul_cancel₀ _ (zpow_ne_zero _ two_ne_zero)

theorem zpow_lt_imp (m n : ℤ) (h : (2 : ℚ) ^ m < 2 ^ n) : m < n := by
  by_contra hc
  exact absurd (zpow_le_zpow_right₀ (by norm_num) (le_of_not_lt hc)) (not_le.mpr h)

theorem exact_core (m e : ℤ) (hm : m < 2 ^ 11) (he : -24 ≤ e) :
    ((rne (((m : ℚ) * 2 ^ e) / ulp16 ((m : ℚ) * 2 ^ e)) : ℚ)) *
      ulp16 ((m : ℚ) * 2 ^ e) = (m : ℚ) * 2 ^ e := by
  unfold ulp16
  by_cases hsub : (m : ℚ) * 2 ^ e < 2 ^ (-14 : ℤ)
  · rw [if_pos hsub]
    exact exact_r m e (-24) he
  · rw [if_neg hsub]
    have hge : (2 : ℚ) ^ (-14 : ℤ) ≤ (m : ℚ) * 2 ^ e := le_of_not_lt hsub
    have hEle : (2 : ℚ) ^ findExpAux ((m : ℚ) * 2 ^ e) 30 (-14) ≤ (m : ℚ) * 2 ^ e :=
      findExpAux_le _ 30 (-14) hge
    have hkQ : ((m : ℤ) : ℚ) < 2 ^ (11 : ℤ) := by
      have h1 : ((m : ℤ) : ℚ) < (((2 ^ 11 : ℤ) : ℚ)) := by exact_mod_cast hm
      calc ((m : ℤ) : ℚ) < ((2 ^ 11 : ℤ) : ℚ) := h1
        _ = 2 ^ (11 : ℤ) := by norm_num
    have hlt : (m : ℚ) * 2 ^ e < 2 ^ (e + 11) := by
      have h2e : (0 : ℚ) < 2 ^ e := by positivity
      calc (m : ℚ) * 2 ^ e < 2 ^ (11 : ℤ) * 2 ^ e := mul_lt_mul_of_pos_right hkQ h2e
        _ = 2 ^ (e + 11) := by rw [← zpow_add₀ (two_ne_zero : (2:ℚ) ≠ 0)]; ring_nf
    have hE : findExpAux ((m : ℚ) * 2 ^ e) 30 (-14) - 10 ≤ e := by
      have := zpow_lt_imp _ _ (lt_of_le_of_lt hEle hlt)
      omega
    exact exact_r m e _ hE

theorem f16Representable_imp_f32 (q : ℚ) (h : isF16Representable q) :
    isF32Representable q := by
  obtain ⟨k, e, hq, hk, he, hbound⟩ := h
  refine ⟨k, e, hq, by omega, by omega, le_trans hbound (by norm_num)⟩

/-- C9: a value representable in the 16-bit format, cast up to full
precision and back down with no gradient step in between, comes back
unchanged: the up-then-down cast round-trip is the identity on
representable values. -/
theorem castF32toF16_roundtrip (q : ℚ) (h : isF16Representable q) :
    castF32toF16 (castF16toF32 q) = some q := by
  obtain ⟨k, e, hq, hk, he, hbound⟩ := h
  show castF32toF16 q = some q
  by_cases h0 : q = 0
  · rw [h0]; simp [castF32toF16]
  · have habs : |q| = ((|k| : ℤ) : ℚ) * 2 ^ e := by
      rw [Int.cast_abs, hq, abs_mul]
      have h2 : |(2 : ℚ) ^ e| = 2 ^ e := abs_of_pos (by positivity)
      rw [h2]
    have hcore : ((rne (|q| / ulp16 |q|) : ℚ)) * ulp16 |q| = |q| := by
      rw [habs]
      exact exact_core |k| e (by omega) he
    simp only [castF32toF16, if_neg h0]
    rw [hcore, if_neg (not_lt.mpr hbound)]
    rcases le_or_lt 0 q with hq0 | hq0
    · rw [if_neg (not_lt.mpr hq0), abs_of_nonneg hq0]
    · rw [if_pos hq0, abs_of_neg hq0]; ring_nf

/-- C9 witness: the round-trip at the representable value `3 / 2`. -/
theorem castF32toF16_roundtrip_witness :
    isF16Representable (3 / 2) ∧ castF32toF16 (castF16toF32 (3 / 2)) = some (3 / 2) := by
  have hrep : isF16Representable (3 / 2) := by
    refine ⟨3, -1, by norm_num, by norm_num, by norm_num, by rw [abs_of_pos] <;> norm_num⟩
  exact ⟨hrep, castF32toF16_roundtrip (3 / 2) hrep⟩

/-! ## Health check lemmas -/

theorem mem_gradValues (gvs : List (Grad × Variable)) (p : Grad × Variable)
    (v : Val) (hp : p ∈ gvs) (hv : v ∈ p.1.valueList) : v ∈ gradValues gvs := by
  induction gvs with
  | nil => cases hp
  | cons x rest ih =>
    rcases List.mem_cons.mp hp with hp | hp
    · subst hp
      exact List.mem_append.mpr (Or.inl hv)
    · exact List.mem_append.mpr (Or.inr (ih hp))

theorem check_grads_hasNonfinite (gvs : List (Grad × Variable))
    (h : ∃ p ∈ gvs, ∃ v ∈ p.1.valueList, v.isFinite = false) :
    (check_grads gvs).1 = true := by
  obtain ⟨p, hp, v, hv, hfin⟩ := h
  unfold check_grads
  simp only [List.any_eq_true]
  exact ⟨v, mem_gradValues gvs p v hp hv, by simp [hfin]⟩

theorem foldl_maxv_finite (l : Tensor) (m : Val) (hm : m.isFinite = true)
    (hl : ∀ v ∈ l, v.isFinite = true) :
    (l.foldl (fun m v => Val.maxv m v.absv) m).isFinite = true := by
  induction l generalizing m with
  | nil => exact hm
  | cons x rest ih =>
    have hx : x.isFinite = true := hl x (List.mem_cons_self x rest)
    have hmx : (Val.maxv m x.absv).isFinite = true := by
      cases m with
      | finite q =>
        cases x with
        | finite r => simp [Val.maxv, Val.absv, Val.isFinite]
        | inf s => cases hx
        | nan => cases hx
      | inf s => cases hm
      | nan => cases hm
    exact ih (Val.maxv m x.absv) hmx
      (fun v hv => hl v (List.mem_cons_of_mem _ hv))

theorem check_grads_allFinite (gvs : List (Grad × Variable))
    (h : ∀ p ∈ gvs, ∀ v ∈ p.1.valueList, v.isFinite = true) :
    (check_grads gvs).1 = false ∧ (check_grads gvs).2.isInf = false := by
  have hall : ∀ v ∈ gradValues gvs, v.isFinite = true := by
    intro v hv
    induction gvs with
    | nil => cases hv
    | cons x rest ih =>
      rcases List.mem_append.mp hv with hv | hv
      · exact h x (by simp) v hv
      · exact ih (fun p hp w hw => h p (by simp [hp]) w hw) hv
  constructor
  · unfold check_grads
    simp only [List.any_eq_false]
    intro v hv
    simp [hall v hv]
  · have hfin : ((check_grads gvs).2).isFinite = true :=
      foldl_maxv_finite (gradValues gvs) (Val.finite 0) rfl hall
    cases hc : (check_grads gvs).2 with
    | finite q => rfl
    | inf s => rw [hc] at hfin; cases hfin
    | nan => rw [hc] at hfin; cases hfin

/-! ## Claim C1: skip on non-finite gradients -/

/-- C1: with loss scaling active, if the gradient batch contains a
non-finite value or its maximum absolute gradient is infinite, the
apply step performs no parameter update at all — the store (every
low-precision parameter and every full-precision shadow) is returned
exactly as it was — while the loss-scale controller's state is still
updated with this step's health signal. -/
theorem apply_gradients_skips_on_nonfinite
    (baseApply : List (Grad × Variable) → Store → Store)
    (m : List (String × Variable)) (sc : ScalerState)
    (gvs : List (Grad × Variable)) (s : Store)
    (h : (∃ p ∈ gvs, ∃ v ∈ p.1.valueList, v.isFinite = false) ∨
      (check_grads gvs).2.isInf = true) :
    applyGradients baseApply m (some sc) gvs s =
      (s, some (scalerUpdate sc (check_grads gvs).1 (check_grads gvs).2)) := by
  have hskip : ((check_grads gvs).2.isInf || (check_grads gvs).1) = true := by
    rcases h with h | h
    · simp [check_grads_hasNonfinite gvs h]
    · simp [h]
  unfold applyGradients
  simp [hskip]

/-- C1 witness: a one-pair batch whose gradient holds a NaN is
skipped: the store survives untouched and the scaler state moves. -/
theorem apply_gradients_skips_on_nonfinite_witness :
    ((∃ p ∈ [(Grad.dense [Val.nan],
        ({ name := "w:0", dtype := DType.fp32, trainable := true } : Variable))],
      ∃ v ∈ p.1.valueList, v.isFinite = false) ∨
     (check_grads [(Grad.dense [Val.nan],
        ({ name := "w:0", dtype := DType.fp32, trainable := true } : Variable))]).2.isInf
        = true) ∧
    applyGradients (fun _ s => s) [] (some ⟨8, 0, 100⟩)
      [(Grad.dense [Val.nan],
        ({ name := "w:0", dtype := DType.fp32, trainable := true } : Variable))]
      [("w:0", [Val.finite 2])] =
      ([("w:0", [Val.finite 2])],
       some (scalerUpdate ⟨8, 0, 100⟩
        (check_grads [(Grad.dense [Val.nan],
          ({ name := "w:0", dtype := DType.fp32, trainable := true } : Variable))]).1
        (check_grads [(Grad.dense [Val.nan],
          ({ name := "w:0", dtype := DType.fp32, trainable := true } : Variable))]).2)) := by
  have h : (∃ p ∈ [(Grad.dense [Val.nan],
        ({ name := "w:0", dtype := DType.fp32, trainable := true } : Variable))],
      ∃ v ∈ p.1.valueList, v.isFinite = false) ∨
     (check_grads [(Grad.dense [Val.nan],
        ({ name := "w:0", dtype := DType.fp32, trainable := true } : Variable))]).2.isInf
        = true := by
    left
    refine ⟨(Grad.dense [Val.nan],
      ({ name := "w:0", dtype := DType.fp32, trainable := true } : Variable)),
      List.mem_singleton.mpr rfl, Val.nan, ?_, rfl⟩
    simp [Grad.valueList]
  exact ⟨h, apply_gradients_skips_on_nonfinite _ _ _ _ _ h⟩

/-! ## Claim C6: the scaler update is unconditional -/

/-- C6: with loss scaling active, the loss-scale controller's state
after the apply step is `scalerUpdate` of this step's health signal —
the same on skipped and applied steps, sequenced before the
skip-versus-apply branch, independent of the store and of whether the
parameter update ran. -/
theorem scaler_update_unconditional
    (baseApply : List (Grad × Variable) → Store → Store)
    (m : List (String × Variable)) (sc : ScalerState)
    (gvs : List (Grad × Variable)) (s : Store) :
    (applyGradients baseApply m (some sc) gvs s).2 =
      some (scalerUpdate sc (check_grads gvs).1 (check_grads gvs).2) := by
  by_cases h : ((check_grads gvs).2.isInf || (check_grads gvs).1) = true
  · simp [applyGradients, h]
  · simp [applyGradients, h]

/-! ## Claim C10: the gradient-scaling helper's frame -/

theorem scale_grads_entry (gvs : List (Grad × Variable)) (scale : Val)
    (i : ℕ) (g : Grad) (v : Variable) (h : gvs[i]? = some (g, v)) :
    (g = Grad.missing → (scale_grads gvs scale)[i]? = some (g, v)) ∧
    (∀ vs, g = Grad.dense vs → (scale_grads gvs scale)[i]? =
      some (Grad.dense (vs.map (fun x => Val.mul x scale)), v)) ∧
    (∀ vs idx shp, g = Grad.indexedSlices vs idx shp →
      (scale_grads gvs scale)[i]? =
        some (Grad.indexedSlices (vs.map (fun x => Val.mul x scale)) idx shp, v)) := by
  refine ⟨?_, ?_, ?_⟩
  · rintro rfl
    simp [scale_grads, List.getElem?_map, h]
  · rintro vs rfl
    simp [scale_grads, List.getElem?_map, h]
  · rintro vs idx shp rfl
    simp [scale_grads, List.getElem?_map, h]

/-- C10: `_scale_grads` returns a list of the same length and order,
never touches the variable component, passes missing-gradient pairs
through unchanged, scales a dense gradient elementwise, and scales
only the value component of a sparse gradient, preserving its index
list and dense shape. -/
theorem scale_grads_frame (gvs : List (Grad × Variable)) (scale : Val) :
    (scale_grads gvs scale).length = gvs.length ∧
    ∀ (i : ℕ) (g : Grad) (v : Variable), gvs[i]? = some (g, v) →
      (g = Grad.missing → (scale_grads gvs scale)[i]? = some (g, v)) ∧
      (∀ vs, g = Grad.dense vs → (scale_grads gvs scale)[i]? =
        some (Grad.dense (vs.map (fun x => Val.mul x scale)), v)) ∧
      (∀ vs idx shp, g = Grad.indexedSlices vs idx shp →
        (scale_grads gvs scale)[i]? =
          some (Grad.indexedSlices (vs.map (fun x => Val.mul x scale)) idx shp, v)) := by
  exact ⟨by simp [scale_grads], fun i g v h => scale_grads_entry gvs scale i g v h⟩

/-- C10 witness: one missing, one dense, one sparse pair at scale 3. -/
theorem scale_grads_frame_witness :
    ([(Grad.missing, ({ name := "a:0", dtype := DType.fp32, trainable := true } : Variable)),
      (Grad.dense [Val.finite 2], ({ name := "b:0", dtype := DType.fp32, trainable := true } : Variable)),
      (Grad.indexedSlices [Val.finite 5] [4] [7], ({ name := "c:0", dtype := DType.fp32, trainable := true } : Variable))][1]? =
      some (Grad.dense [Val.finite 2], ({ name := "b:0", dtype := DType.fp32, trainable := true } : Variable))) ∧
    (scale_grads
      [(Grad.missing, ({ name := "a:0", dtype := DType.fp32, trainable := true } : Variable)),
       (Grad.dense [Val.finite 2], ({ name := "b:0", dtype := DType.fp32, trainable := true } : Variable)),
       (Grad.indexedSlices [Val.finite 5] [4] [7], ({ name := "c:0", dtype := DType.fp32, trainable := true } : Variable))]
      (Val.finite 3))[1]? =
      some (Grad.dense ([Val.finite 2].map (fun x => Val.mul x (Val.finite 3))),
        ({ name := "b:0", dtype := DType.fp32, trainable := true } : Variable)) := by
  constructor
  · rfl
  · exact ((scale_grads_frame _ (Val.finite 3)).2 1 _ _ rfl).2.1 [Val.finite 2] rfl

/-! ## Claim C3: scale the loss up front, unscale every gradient -/

/-- C3: with a loss-scale controller configured, the loss handed to
the base optimizer's differentiation is the loss times the current
scale, and the returned list is the promoted pair list built from
those gradients with every present gradient multiplied by the
reciprocal of that same scale — dense gradients as a whole, sparse
gradients on their value component only, with indices and dense shape
preserved, missing gradients untouched. -/
theorem compute_gradients_scale_unscale
    (baseCompute : Val → List (Grad × Variable))
    (regCollection : List (Variable × RegFn)) (sc : ScalerState)
    (loss : Val) (st : WrapperState) (store : Store) :
    (computeGradients baseCompute regCollection (some sc) loss st store).1.length =
      (promotePairs (regCollection.map (fun p => (p.1.name, p.2)))
        (scopeName st.scopeUses)
        (baseCompute (Val.mul loss (Val.finite sc.scale)))
        st.fp32_to_fp16 st.shadowsCreated store).1.length ∧
    ∀ (i : ℕ) (g : Grad) (v : Variable),
      (promotePairs (regCollection.map (fun p => (p.1.name, p.2)))
        (scopeName st.scopeUses)
        (baseCompute (Val.mul loss (Val.finite sc.scale)))
        st.fp32_to_fp16 st.shadowsCreated store).1[i]? = some (g, v) →
      (g = Grad.missing →
        (computeGradients baseCompute regCollection (some sc) loss st store).1[i]? =
          some (g, v)) ∧
      (∀ vs, g = Grad.dense vs →
        (computeGradients baseCompute regCollection (some sc) loss st store).1[i]? =
          some (Grad.dense (vs.map (fun x => Val.mul x (Val.finite (1 / sc.scale)))), v)) ∧
      (∀ vs idx shp, g = Grad.indexedSlices vs idx shp →
        (computeGradients baseCompute regCollection (some sc) loss st store).1[i]? =
          some (Grad.indexedSlices
            (vs.map (fun x => Val.mul x (Val.finite (1 / sc.scale)))) idx shp, v)) := by
  have hout : (computeGradients baseCompute regCollection (some sc) loss st store).1 =
      scale_grads
        (promotePairs (regCollection.map (fun p => (p.1.name, p.2)))
          (scopeName st.scopeUses)
          (baseCompute (Val.mul loss (Val.finite sc.scale)))
          st.fp32_to_fp16 st.shadowsCreated store).1
        (Val.finite (1 / sc.scale)) := rfl
  rw [hout]
  exact ⟨by simp [scale_grads], fun i g v h => scale_grads_entry _ _ i g v h⟩

/-- C3 witness: a base optimizer whose single dense gradient is the
loss itself shows the loss scaled by 2 before differentiation and the
gradient unscaled by 1/2 afterwards. -/
theorem compute_gradients_scale_unscale_witness :
    ((promotePairs [] (scopeName 0)
        ((fun l => [(Grad.dense [l],
          ({ name := "w:0", dtype := DType.fp32, trainable := true } : Variable))])
          (Val.mul (Val.finite 6) (Val.finite 2)))
        [] [] []).1[0]? =
      some (Grad.dense [Val.mul (Val.finite 6) (Val.finite 2)],
        ({ name := "w:0", dtype := DType.fp32, trainable := true } : Variable))) ∧
    ((computeGradients
        (fun l => [(Grad.dense [l],
          ({ name := "w:0", dtype := DType.fp32, trainable := true } : Variable))])
        [] (some ⟨2, 0, 100⟩) (Val.finite 6) initWrapperState []).1[0]? =
      some (Grad.dense ([Val.mul (Val.finite 6) (Val.finite 2)].map
          (fun x => Val.mul x (Val.finite (1 / 2)))),
        ({ name := "w:0", dtype := DType.fp32, trainable := true } : Variable))) := by
  constructor
  · simp [promotePairs, scopeName]
  · exact ((compute_gradients_scale_unscale
      (fun l => [(Grad.dense [l],
        ({ name := "w:0", dtype := DType.fp32, trainable := true } : Variable))])
      [] ⟨2, 0, 100⟩ (Val.finite 6) initWrapperState []).2 0 _ _
      (by simp [promotePairs, scopeName, initWrapperState])).2.1
      [Val.mul (Val.finite 6) (Val.finite 2)] rfl

/-! ## Store and copy-back lemmas -/

theorem Store.get_set_self (s : Store) (n : String) (t : Tensor) :
    Store.get (Store.set s n t) n = t := by
  induction s with
  | nil => simp [Store.set, Store.get]
  | cons kv rest ih =>
    obtain ⟨k, v⟩ := kv
    by_cases h : k = n
    · simp [Store.set, Store.get, h]
    · simp [Store.set, Store.get, h, ih]

theorem Store.get_set_ne (s : Store) (n m : String) (t : Tensor) (h : m ≠ n) :
    Store.get (Store.set s n t) m = Store.get s m := by
  induction s with
  | nil =>
    simp only [Store.set, Store.get]
    rw [if_neg (fun he => h he.symm)]
  | cons kv rest ih =>
    obtain ⟨k, v⟩ := kv
    by_cases hk : k = n
    · subst hk
      simp only [Store.set, Store.get, if_pos rfl]
      rw [if_neg (fun he => h he.symm), if_neg (fun he => h he.symm)]
    · by_cases hm : k = m
      · subst hm
        simp [Store.set, Store.get, if_neg hk]
      · simp only [Store.set, Store.get, if_neg hk, if_neg hm]
        exact ih

theorem copyBack_frame (m : List (String × Variable)) (s1 : Store)
    (gvs : List (Grad × Variable)) (acc : Store) (n : String)
    (h : n ∉ dstNames m gvs) :
    Store.get (gvs.foldl (fun acc gv =>
      match mapFind m gv.2.name with
      | some dst => Store.set acc dst.name (Tensor.cast16 (Store.get s1 gv.2.name))
      | Option.none => acc) acc) n = Store.get acc n := by
  induction gvs generalizing acc with
  | nil => rfl
  | cons x rest ih =>
    cases hf : mapFind m x.2.name with
    | none =>
      have h2 : n ∉ dstNames m rest := by
        simpa [dstNames, List.filterMap_cons, hf] using h
      simpa only [List.foldl_cons, hf] using ih acc h2
    | some dst =>
      have hcons : dstNames m (x :: rest) = dst.name :: dstNames m rest := by
        simp [dstNames, List.filterMap_cons, hf]
      rw [hcons] at h
      have hne : n ≠ dst.name := fun he => h (he ▸ List.mem_cons_self _ _)
      have h2 : n ∉ dstNames m rest := fun hmem => h (List.mem_cons_of_mem _ hmem)
      simp only [List.foldl_cons, hf]
      rw [ih _ h2, Store.get_set_ne _ _ _ _ hne]

theorem copyBack_write (m : List (String × Variable)) (s1 : Store)
    (gvs : List (Grad × Variable)) (acc : Store) (p : Grad × Variable)
    (dst : Variable) (hp : p ∈ gvs) (hf : mapFind m p.2.name = some dst)
    (hnd : (dstNames m gvs).Nodup) :
    Store.get (gvs.foldl (fun acc gv =>
      match mapFind m gv.2.name with
      | some dst => Store.set acc dst.name (Tensor.cast16 (Store.get s1 gv.2.name))
      | Option.none => acc) acc) dst.name = Tensor.cast16 (Store.get s1 p.2.name) := by
  induction gvs generalizing acc with
  | nil => cases hp
  | cons x rest ih =>
    rcases List.mem_cons.mp hp with hx | hx
    · subst hx
      simp only [List.foldl_cons, hf]
      have hcons : dstNames m (p :: rest) = dst.name :: dstNames m rest := by
        simp [dstNames, List.filterMap_cons, hf]
      rw [hcons] at hnd
      have hnot : dst.name ∉ dstNames m rest := (List.nodup_cons.mp hnd).1
      rw [copyBack_frame m s1 rest _ dst.name hnot, Store.get_set_self]
    · cases hfx : mapFind m x.2.name with
      | none =>
        have hnd2 : (dstNames m rest).Nodup := by
          simpa [dstNames, List.filterMap_cons, hfx] using hnd
        simp only [List.foldl_cons, hfx]
        exact ih _ hx hnd2
      | some d =>
        have hcons : dstNames m (x :: rest) = d.name :: dstNames m rest := by
          simp [dstNames, List.filterMap_cons, hfx]
        rw [hcons] at hnd
        have hnd2 : (dstNames m rest).Nodup := (List.nodup_cons.mp hnd).2
        simp only [List.foldl_cons, hfx]
        exact ih _ hx hnd2

/-! ## Claim C2: finite batches are applied and copied back -/

/-- C2: with loss scaling active and an all-finite gradient batch, the
apply step runs the update-and-copy-back path: the store becomes
`apply_ops_wrapper`'s result, every pair's own parameter holds exactly
the value the base optimizer's update left (as does every variable
that is not a copy-back destination), and every low-precision
parameter registered for a pair's variable holds exactly the cast-down
value of that just-updated full-precision variable.  Hypotheses: the
copy-back destinations are pairwise distinct and distinct from the
pairs' own (full-precision) variable names. -/
theorem apply_gradients_applies_on_finite
    (baseApply : List (Grad × Variable) → Store → Store)
    (m : List (String × Variable)) (sc : ScalerState)
    (gvs : List (Grad × Variable)) (s : Store)
    (hfin : ∀ p ∈ gvs, ∀ v ∈ p.1.valueList, v.isFinite = true)
    (hnd : (dstNames m gvs).Nodup)
    (hdisj : ∀ n ∈ dstNames m gvs, ∀ p ∈ gvs, n ≠ p.2.name) :
    (applyGradients baseApply m (some sc) gvs s).1 =
      applyOpsWrapper baseApply m gvs s ∧
    (∀ p ∈ gvs,
      Store.get (applyGradients baseApply m (some sc) gvs s).1 p.2.name =
        Store.get (baseApply gvs s) p.2.name) ∧
    (∀ n, n ∉ dstNames m gvs →
      Store.get (applyGradients baseApply m (some sc) gvs s).1 n =
        Store.get (baseApply gvs s) n) ∧
    (∀ p ∈ gvs, ∀ dst, mapFind m p.2.name = some dst →
      Store.get (applyGradients baseApply m (some sc) gvs s).1 dst.name =
        Tensor.cast16 (Store.get (baseApply gvs s) p.2.name)) := by
  have hcg := check_grads_allFinite gvs hfin
  have hskip : ((check_grads gvs).2.isInf || (check_grads gvs).1) = false := by
    simp [hcg.1, hcg.2]
  have h1 : (applyGradients baseApply m (some sc) gvs s).1 =
      applyOpsWrapper baseApply m gvs s := by
    unfold applyGradients
    simp [hskip]
  refine ⟨h1, ?_, ?_, ?_⟩
  · intro p hp
    have hmem : p.2.name ∉ dstNames m gvs := fun hm => hdisj _ hm p hp rfl
    rw [h1]
    exact copyBack_frame m (baseApply gvs s) gvs _ _ hmem
  · intro n hn
    rw [h1]
    exact copyBack_frame m (baseApply gvs s) gvs _ _ hn
  · intro p hp dst hf
    rw [h1]
    exact copyBack_write m (baseApply gvs s) gvs _ p dst hp hf hnd

/-- C2 witness: one float16 parameter `w:0` with shadow
`FP32-master-copy/w:0`; the base optimizer writes 3 into the shadow
and the copy-back lands `cast16 3` in `w:0`. -/
theorem apply_gradients_applies_on_finite_witness :
    (∀ p ∈ [(Grad.dense [Val.finite 1],
        ({ name := "FP32-master-copy/w:0", dtype := DType.fp32,
           trainable := false } : Variable))],
      ∀ v ∈ p.1.valueList, v.isFinite = true) ∧
    ((dstNames
      [("FP32-master-copy/w:0",
        ({ name := "w:0", dtype := DType.fp16, trainable := true } : Variable))]
      [(Grad.dense [Val.finite 1],
        ({ name := "FP32-master-copy/w:0", dtype := DType.fp32,
           trainable := false } : Variable))]).Nodup) ∧
    Store.get
      (applyGradients
        (fun _ st => Store.set st "FP32-master-copy/w:0" [Val.finite 3])
        [("FP32-master-copy/w:0",
          ({ name := "w:0", dtype := DType.fp16, trainable := true } : Variable))]
        (some ⟨8, 0, 100⟩)
        [(Grad.dense [Val.finite 1],
          ({ name := "FP32-master-copy/w:0", dtype := DType.fp32,
             trainable := false } : Variable))]
        [("w:0", [Val.finite 2]), ("FP32-master-copy/w:0", [Val.finite 2])]).1
      "w:0" =
      Tensor.cast16
        (Store.get
          ((fun _ st => Store.set st "FP32-master-copy/w:0" [Val.finite 3])
            [(Grad.dense [Val.finite 1],
              ({ name := "FP32-master-copy/w:0", dtype := DType.fp32,
                 trainable := false } : Variable))]
            [("w:0", [Val.finite 2]), ("FP32-master-copy/w:0", [Val.finite 2])])
          "FP32-master-copy/w:0") := by
  refine ⟨by decide, by decide, ?_⟩
  exact (apply_gradients_applies_on_finite
    (fun _ st => Store.set st "FP32-master-copy/w:0" [Val.finite 3])
    [("FP32-master-copy/w:0",
      ({ name := "w:0", dtype := DType.fp16, trainable := true } : Variable))]
    ⟨8, 0, 100⟩
    [(Grad.dense [Val.finite 1],
      ({ name := "FP32-master-copy/w:0", dtype := DType.fp32,
         trainable := false } : Variable))]
    [("w:0", [Val.finite 2]), ("FP32-master-copy/w:0", [Val.finite 2])]
    (by decide) (by decide) (by decide)).2.2.2
    (Grad.dense [Val.finite 1],
      ({ name := "FP32-master-copy/w:0", dtype := DType.fp32,
         trainable := false } : Variable))
    (List.mem_singleton.mpr rfl)
    ({ name := "w:0", dtype := DType.fp16, trainable := true } : Variable)
    rfl

/-! ## Dict and promotion-pass lemmas -/

theorem mapFind_mapSet_self (m : List (String × Variable)) (k : String)
    (v : Variable) : mapFind (mapSet m k v) k = some v := by
  induction m with
  | nil => simp [mapSet, mapFind]
  | cons kv rest ih =>
    obtain ⟨k2, v2⟩ := kv
    by_cases h : k2 = k
    · simp [mapSet, mapFind, h]
    · simp [mapSet, mapFind, h, ih]

theorem mapFind_mapSet_ne (m : List (String × Variable)) (k k2 : String)
    (v : Variable) (h : k2 ≠ k) :
    mapFind (mapSet m k v) k2 = mapFind m k2 := by
  induction m with
  | nil =>
    simp only [mapSet, mapFind]
    rw [if_neg (fun he => h he.symm)]
  | cons kv rest ih =>
    obtain ⟨k3, v3⟩ := kv
    by_cases h3 : k3 = k
    · subst h3
      simp only [mapSet, mapFind, if_pos rfl]
      rw [if_neg (fun he => h he.symm), if_neg (fun he => h he.symm)]
    · by_cases h2 : k3 = k2
      · subst h2
        simp [mapSet, mapFind, if_neg h3]
      · simp only [mapSet, mapFind, if_neg h3]
        rw [if_neg h2, if_neg h2]
        exact ih

theorem mapFind_mapSet_isSome (m : List (String × Variable)) (k k2 : String)
    (v : Variable) (h : (mapFind m k2).isSome = true) :
    (mapFind (mapSet m k v) k2).isSome = true := by
  by_cases he : k2 = k
  · subst he
    simp [mapFind_mapSet_self]
  · rw [mapFind_mapSet_ne m k k2 v he]
    exact h

theorem shadowNames_cons_fp16 (scope : String) (g : Grad) (var : Variable)
    (rest : List (Grad × Variable)) (hd : var.dtype = DType.fp16) :
    shadowNames scope ((g, var) :: rest) =
      shadowName scope var :: shadowNames scope rest := by
  simp [shadowNames, List.filterMap_cons, hd]

theorem shadowNames_cons_other (scope : String) (g : Grad) (var : Variable)
    (rest : List (Grad × Variable)) (hd : ¬ var.dtype = DType.fp16) :
    shadowNames scope ((g, var) :: rest) = shadowNames scope rest := by
  simp [shadowNames, List.filterMap_cons, hd]

theorem promote_map_frame (regFuncs : List (String × RegFn)) (scope : String) :
    ∀ (gvs : List (Grad × Variable)) (m : List (String × Variable))
      (created : List Variable) (store : Store) (k : String),
      k ∉ shadowNames scope gvs →
      mapFind (promotePairs regFuncs scope gvs m created store).2.1 k =
        mapFind m k := by
  intro gvs
  induction gvs with
  | nil => intro m created store k _; rfl
  | cons x rest ih =>
    intro m created store k hk
    obtain ⟨g, var⟩ := x
    by_cases hd : var.dtype = DType.fp16
    · rw [shadowNames_cons_fp16 scope g var rest hd] at hk
      have hk1 : k ≠ shadowName scope var :=
        fun he => hk (he ▸ List.mem_cons_self _ _)
      have hk2 : k ∉ shadowNames scope rest :=
        fun hm => hk (List.mem_cons_of_mem _ hm)
      simp only [promotePairs, if_pos hd]
      rw [ih _ _ _ k hk2, mapFind_mapSet_ne _ _ _ _ hk1]
    · rw [shadowNames_cons_other scope g var rest hd] at hk
      simp only [promotePairs, if_neg hd]
      exact ih _ _ _ k hk

theorem promote_store_frame (regFuncs : List (String × RegFn)) (scope : String) :
    ∀ (gvs : List (Grad × Variable)) (m : List (String × Variable))
      (created : List Variable) (store : Store) (k : String),
      k ∉ shadowNames scope gvs →
      Store.get (promotePairs regFuncs scope gvs m created store).2.2.2 k =
        Store.get store k := by
  intro gvs
  induction gvs with
  | nil => intro m created store k _; rfl
  | cons x rest ih =>
    intro m created store k hk
    obtain ⟨g, var⟩ := x
    by_cases hd : var.dtype = DType.fp16
    · rw [shadowNames_cons_fp16 scope g var rest hd] at hk
      have hk1 : k ≠ shadowName scope var :=
        fun he => hk (he ▸ List.mem_cons_self _ _)
      have hk2 : k ∉ shadowNames scope rest :=
        fun hm => hk (List.mem_cons_of_mem _ hm)
      simp only [promotePairs, if_pos hd]
      rw [ih _ _ _ k hk2, Store.get_set_ne _ _ _ _ hk1]
    · rw [shadowNames_cons_other scope g var rest hd] at hk
      simp only [promotePairs, if_neg hd]
      exact ih _ _ _ k hk

theorem promote_map_mono (regFuncs : List (String × RegFn)) (scope : String) :
    ∀ (gvs : List (Grad × Variable)) (m : List (String × Variable))
      (created : List Variable) (store : Store) (k : String),
      (mapFind m k).isSome = true →
      (mapFind (promotePairs regFuncs scope gvs m created store).2.1 k).isSome
        = true := by
  intro gvs
  induction gvs with
  | nil => intro m created store k h; exact h
  | cons x rest ih =>
    intro m created store k h
    obtain ⟨g, var⟩ := x
    by_cases hd : var.dtype = DType.fp16
    · simp only [promotePairs, if_pos hd]
      exact ih _ _ _ k (mapFind_mapSet_isSome m _ k var h)
    · simp only [promotePairs, if_neg hd]
      exact ih _ _ _ k h

theorem promote_created_count (regFuncs : List (String × RegFn)) (scope : String) :
    ∀ (gvs : List (Grad × Variable)) (m : List (String × Variable))
      (created : List Variable) (store : Store),
      (promotePairs regFuncs scope gvs m created store).2.2.1.length =
        created.length +
          gvs.countP (fun p => decide (p.2.dtype = DType.fp16)) := by
  intro gvs
  induction gvs with
  | nil => intro m created store; simp [promotePairs]
  | cons x rest ih =>
    intro m created store
    obtain ⟨g, var⟩ := x
    by_cases hd : var.dtype = DType.fp16
    · simp only [promotePairs, if_pos hd]
      rw [ih]
      simp [List.countP_cons, hd, List.length_append]
      omega
    · simp only [promotePairs, if_neg hd]
      rw [ih]
      simp [List.countP_cons, hd]

theorem promote_get_aux (regFuncs : List (String × RegFn)) (scope : String) :
    ∀ (gvs : List (Grad × Variable)) (m : List (String × Variable))
      (created : List Variable) (store store0 : Store),
      (∀ p ∈ gvs, Store.get store p.2.name = Store.get store0 p.2.name) →
      (∀ p ∈ gvs, ∀ q ∈ gvs, shadowName scope q.2 ≠ p.2.name) →
      ∀ (i : ℕ) (g : Grad) (var : Variable), gvs[i]? = some (g, var) →
        (var.dtype = DType.fp16 →
          (promotePairs regFuncs scope gvs m created store).1[i]? =
            some (((match regFind regFuncs var.name with
              | some f => Grad.addDense (castUpGrad g)
                  (f.grad (castUpTensor (Store.get store0 var.name)))
              | Option.none => castUpGrad g) : Grad),
              { name := shadowName scope var, dtype := DType.fp32,
                trainable := false })) ∧
        (¬ var.dtype = DType.fp16 →
          (promotePairs regFuncs scope gvs m created store).1[i]? =
            some (g, var)) := by
  intro gvs
  induction gvs with
  | nil => intro m created store store0 _ _ i g var h; cases h
  | cons x rest ih =>
    intro m created store store0 hagree hsep i g var h
    obtain ⟨gx, vx⟩ := x
    cases i with
    | zero =>
      have hx : gx = g ∧ vx = var := by
        simpa using h
      obtain ⟨rfl, rfl⟩ := hx
      constructor
      · intro hd
        have hval : Store.get store vx.name = Store.get store0 vx.name :=
          hagree (gx, vx) (List.mem_cons_self _ _)
        simp [promotePairs, hd, hval]
      · intro hd
        simp [promotePairs, hd]
    | succ i =>
      have hrest : rest[i]? = some (g, var) := by
        simpa using h
      by_cases hd : vx.dtype = DType.fp16
      · have hsname : shadowName scope vx ≠ vx.name ∧
            ∀ p ∈ rest, shadowName scope vx ≠ p.2.name := by
          constructor
          · exact hsep (gx, vx) (List.mem_cons_self _ _) (gx, vx)
              (List.mem_cons_self _ _)
          · intro p hp
            exact hsep p (List.mem_cons_of_mem _ hp) (gx, vx)
              (List.mem_cons_self _ _)
        have hagree2 : ∀ p ∈ rest,
            Store.get (Store.set store (shadowName scope vx)
              (castUpTensor (Store.get store vx.name))) p.2.name =
              Store.get store0 p.2.name := by
          intro p hp
          rw [Store.get_set_ne _ _ _ _ (fun he => hsname.2 p hp he.symm)]
          exact hagree p (List.mem_cons_of_mem _ hp)
        have hsep2 : ∀ p ∈ rest, ∀ q ∈ rest, shadowName scope q.2 ≠ p.2.name :=
          fun p hp q hq => hsep p (List.mem_cons_of_mem _ hp) q
            (List.mem_cons_of_mem _ hq)
        have hih := ih (mapSet m (shadowName scope vx) vx)
          (created ++
            [({ name := shadowName scope vx, dtype := DType.fp32, trainable := false } : Variable)])
          (Store.set store (shadowName scope vx)
            (castUpTensor (Store.get store vx.name)))
          store0 hagree2 hsep2 i g var hrest
        simp only [promotePairs, if_pos hd]
        simpa using hih
      · have hagree2 : ∀ p ∈ rest, Store.get store p.2.name =
            Store.get store0 p.2.name :=
          fun p hp => hagree p (List.mem_cons_of_mem _ hp)
        have hsep2 : ∀ p ∈ rest, ∀ q ∈ rest, shadowName scope q.2 ≠ p.2.name :=
          fun p hp q hq => hsep p (List.mem_cons_of_mem _ hp) q
            (List.mem_cons_of_mem _ hq)
        have hih := ih m created store store0 hagree2 hsep2 i g var hrest
        simp only [promotePairs, if_neg hd]
        simpa using hih

theorem promote_registered (regFuncs : List (String × RegFn)) (scope : String) :
    ∀ (gvs : List (Grad × Variable)) (m : List (String × Variable))
      (created : List Variable) (store : Store),
      (shadowNames scope gvs).Nodup →
      ∀ (i : ℕ) (g : Grad) (var : Variable), gvs[i]? = some (g, var) →
        var.dtype = DType.fp16 →
        mapFind (promotePairs regFuncs scope gvs m created store).2.1
          (shadowName scope var) = some var := by
  intro gvs
  induction gvs with
  | nil => intro m created store _ i g var h; cases h
  | cons x rest ih =>
    intro m created store hnd i g var h hd
    obtain ⟨gx, vx⟩ := x
    cases i with
    | zero =>
      have hx : gx = g ∧ vx = var := by simpa using h
      obtain ⟨rfl, rfl⟩ := hx
      rw [shadowNames_cons_fp16 scope gx vx rest hd] at hnd
      have hnot : shadowName scope vx ∉ shadowNames scope rest :=
        (List.nodup_cons.mp hnd).1
      simp only [promotePairs, if_pos hd]
      rw [promote_map_frame regFuncs scope rest _ _ _ _ hnot,
        mapFind_mapSet_self]
    | succ i =>
      have hrest : rest[i]? = some (g, var) := by simpa using h
      by_cases hdx : vx.dtype = DType.fp16
      · rw [shadowNames_cons_fp16 scope gx vx rest hdx] at hnd
        have hnd2 := (List.nodup_cons.mp hnd).2
        simp only [promotePairs, if_pos hdx]
        exact ih _ _ _ hnd2 i g var hrest hd
      · rw [shadowNames_cons_other scope gx vx rest hdx] at hnd
        simp only [promotePairs, if_neg hdx]
        exact ih _ _ _ hnd i g var hrest hd

theorem promote_shadow_init (regFuncs : List (String × RegFn)) (scope : String) :
    ∀ (gvs : List (Grad × Variable)) (m : List (String × Variable))
      (created : List Variable) (store store0 : Store),
      (∀ p ∈ gvs, Store.get store p.2.name = Store.get store0 p.2.name) →
      (∀ p ∈ gvs, ∀ q ∈ gvs, shadowName scope q.2 ≠ p.2.name) →
      (shadowNames scope gvs).Nodup →
      ∀ (i : ℕ) (g : Grad) (var : Variable), gvs[i]? = some (g, var) →
        var.dtype = DType.fp16 →
        Store.get (promotePairs regFuncs scope gvs m created store).2.2.2
          (shadowName scope var) = castUpTensor (Store.get store0 var.name) := by
  intro gvs
  induction gvs with
  | nil => intro m created store store0 _ _ _ i g var h; cases h
  | cons x rest ih =>
    intro m created store store0 hagree hsep hnd i g var h hd
    obtain ⟨gx, vx⟩ := x
    cases i with
    | zero =>
      have hx : gx = g ∧ vx = var := by simpa using h
      obtain ⟨rfl, rfl⟩ := hx
      rw [shadowNames_cons_fp16 scope gx vx rest hd] at hnd
      have hnot : shadowName scope vx ∉ shadowNames scope rest :=
        (List.nodup_cons.mp hnd).1
      have hval : Store.get store vx.name = Store.get store0 vx.name :=
        hagree (gx, vx) (List.mem_cons_self _ _)
      simp only [promotePairs, if_pos hd]
      rw [promote_store_frame regFuncs scope rest _ _ _ _ hnot,
        Store.get_set_self, hval]
    | succ i =>
      have hrest : rest[i]? = some (g, var) := by simpa using h
      by_cases hdx : vx.dtype = DType.fp16
      · rw [shadowNames_cons_fp16 scope gx vx rest hdx] at hnd
        have hnd2 := (List.nodup_cons.mp hnd).2
        have hagree2 : ∀ p ∈ rest,
            Store.get (Store.set store (shadowName scope vx)
              (castUpTensor (Store.get store vx.name))) p.2.name =
              Store.get store0 p.2.name := by
          intro p hp
          rw [Store.get_set_ne _ _ _ _
            (fun he => hsep p (List.mem_cons_of_mem _ hp) (gx, vx)
              (List.mem_cons_self _ _) he.symm)]
          exact hagree p (List.mem_cons_of_mem _ hp)
        have hsep2 : ∀ p ∈ rest, ∀ q ∈ rest, shadowName scope q.2 ≠ p.2.name :=
          fun p hp q hq => hsep p (List.mem_cons_of_mem _ hp) q
            (List.mem_cons_of_mem _ hq)
        simp only [promotePairs, if_pos hdx]
        exact ih _ _ _ _ hagree2 hsep2 hnd2 i g var hrest hd
      · rw [shadowNames_cons_other scope gx vx rest hdx] at hnd
        have hagree2 : ∀ p ∈ rest, Store.get store p.2.name =
            Store.get store0 p.2.name :=
          fun p hp => hagree p (List.mem_cons_of_mem _ hp)
        have hsep2 : ∀ p ∈ rest, ∀ q ∈ rest, shadowName scope q.2 ≠ p.2.name :=
          fun p hp q hq => hsep p (List.mem_cons_of_mem _ hp) q
            (List.mem_cons_of_mem _ hq)
        simp only [promotePairs, if_neg hdx]
        exact ih _ _ _ _ hagree2 hsep2 hnd i g var hrest hd

/-! ## Claim C4: promotion of float16 pairs -/

/-- C4 counterexample: with a regularizer registered for the float16
parameter `w:0` whose penalty gradient is 5, the promoted gradient is
the cast-up gradient plus 5 — not the plain cast of the input
gradient, as the claim states for every pair. -/
theorem promote_plain_cast_cex :
    (computeGradients
      (fun _ => [(Grad.dense [Val.finite 1],
        ({ name := "w:0", dtype := DType.fp16, trainable := true } : Variable))])
      [(({ name := "w:0", dtype := DType.fp16, trainable := true } : Variable),
        (⟨fun _ => Val.finite 0, fun _ => [Val.finite 5]⟩ : RegFn))]
      Option.none (Val.finite 0) initWrapperState
      [("w:0", [Val.finite 2])]).1[0]? =
      some (Grad.dense [Val.finite 6],
        ({ name := "FP32-master-copy/w:0", dtype := DType.fp32,
           trainable := false } : Variable)) ∧
    Grad.dense [Val.finite 6] ≠ castUpGrad (Grad.dense [Val.finite 1]) := by
  constructor
  · have h0 : (computeGradients
        (fun _ => [(Grad.dense [Val.finite 1],
          ({ name := "w:0", dtype := DType.fp16, trainable := true } : Variable))])
        [(({ name := "w:0", dtype := DType.fp16, trainable := true } : Variable),
          (⟨fun _ => Val.finite 0, fun _ => [Val.finite 5]⟩ : RegFn))]
        Option.none (Val.finite 0) initWrapperState
        [("w:0", [Val.finite 2])]).1[0]? =
        some (Grad.dense [Val.add (Val.finite 1) (Val.finite 5)],
          ({ name := "FP32-master-copy/w:0", dtype := DType.fp32,
             trainable := false } : Variable)) := rfl
    rw [h0]
    norm_num [Val.add]
  · intro hcontra
    have hv := congrArg Grad.valueList hcontra
    simp [castUpGrad, Grad.valueList] at hv

/-- C4 (amended): for every pair from the base optimizer's gradient
computation whose parameter is float16 and which carries a gradient
(an absent gradient makes the source raise at the line-59 cast),
`compute_gradients` replaces the pair with the gradient cast to full
precision — plus, when a regularization function is registered for
the parameter, the regularization penalty's gradient with respect to
the shadow, densifying a sparse gradient first — paired with a
freshly created full-precision shadow that is non-trainable, named
after the parameter inside the scope, initialized from the
parameter's current value cast up, and registered in the Shadow
Parameter Map under the shadow's name; every other pair passes
through unchanged.  Hypotheses: within the call, shadow names are
pairwise distinct and disjoint from parameter names. -/
theorem compute_gradients_promotes_pairs
    (baseCompute : Val → List (Grad × Variable))
    (regCollection : List (Variable × RegFn)) (loss : Val)
    (st : WrapperState) (store : Store)
    (hsep : ∀ p ∈ baseCompute loss, ∀ q ∈ baseCompute loss,
      shadowName (scopeName st.scopeUses) q.2 ≠ p.2.name)
    (hnd : (shadowNames (scopeName st.scopeUses) (baseCompute loss)).Nodup) :
    ∀ (i : ℕ) (g : Grad) (var : Variable),
      (baseCompute loss)[i]? = some (g, var) →
      (var.dtype = DType.fp16 →
        (¬ g = Grad.missing →
          (computeGradients baseCompute regCollection Option.none loss st
              store).1[i]? =
            some (((match regFind (regCollection.map (fun p => (p.1.name, p.2)))
                var.name with
              | some f => Grad.addDense (castUpGrad g)
                  (f.grad (castUpTensor (Store.get store var.name)))
              | Option.none => castUpGrad g) : Grad),
              { name := shadowName (scopeName st.scopeUses) var,
                dtype := DType.fp32, trainable := false })) ∧
        mapFind (computeGradients baseCompute regCollection Option.none loss st
            store).2.1.fp32_to_fp16
          (shadowName (scopeName st.scopeUses) var) = some var ∧
        Store.get (computeGradients baseCompute regCollection Option.none loss st
            store).2.2
          (shadowName (scopeName st.scopeUses) var) =
          castUpTensor (Store.get store var.name)) ∧
      (¬ var.dtype = DType.fp16 →
        (computeGradients baseCompute regCollection Option.none loss st store).1[i]? =
          some (g, var)) := by
  intro i g var h
  have hget := promote_get_aux (regCollection.map (fun p => (p.1.name, p.2)))
    (scopeName st.scopeUses) (baseCompute loss) st.fp32_to_fp16
    st.shadowsCreated store store (fun _ _ => rfl) hsep i g var h
  refine ⟨fun hd => ⟨fun _ => hget.1 hd, ?_, ?_⟩, hget.2⟩
  · exact promote_registered _ _ (baseCompute loss) _ _ _ hnd i g var h (by assumption)
  · exact promote_shadow_init _ _ (baseCompute loss) _ _ _ _
      (fun _ _ => rfl) hsep hnd i g var h (by assumption)

/-- C4 witness: a single unregularized float16 pair at index 0. -/
theorem compute_gradients_promotes_pairs_witness :
    ((fun _ => [(Grad.dense [Val.finite 1],
      ({ name := "w:0", dtype := DType.fp16, trainable := true } : Variable))])
        (Val.finite 0))[0]? =
      some (Grad.dense [Val.finite 1],
        ({ name := "w:0", dtype := DType.fp16, trainable := true } : Variable)) ∧
    (computeGradients
      (fun _ => [(Grad.dense [Val.finite 1],
        ({ name := "w:0", dtype := DType.fp16, trainable := true } : Variable))])
      [] Option.none (Val.finite 0) initWrapperState
      [("w:0", [Val.finite 2])]).1[0]? =
      some (castUpGrad (Grad.dense [Val.finite 1]),
        ({ name := shadowName (scopeName 0)
             ({ name := "w:0", dtype := DType.fp16, trainable := true } : Variable),
           dtype := DType.fp32, trainable := false } : Variable)) := by
  refine ⟨rfl, ?_⟩
  have := ((compute_gradients_promotes_pairs
    (fun _ => [(Grad.dense [Val.finite 1],
      ({ name := "w:0", dtype := DType.fp16, trainable := true } : Variable))])
    [] (Val.finite 0) initWrapperState [("w:0", [Val.finite 2])]
    (by decide) (by decide)) 0 (Grad.dense [Val.finite 1])
    ({ name := "w:0", dtype := DType.fp16, trainable := true } : Variable)
    rfl).1 rfl
  exact this.1 (by decide)

/-! ## Claim C5: regularization redirection -/

/-- C5: the regularization redirector records a float16 parameter's
(parameter, regularizer) pair in the collection and returns no
penalty, so ordinary backward differentiation sees no regularization
term for it; it applies the regularizer normally on any other
parameter; and for every registered float16 parameter that carries a
gradient, the promoted full-precision gradient equals the cast-up
gradient plus the registered regularizer's gradient taken with
respect to the full-precision shadow's value — elementwise for a
dense gradient, and after TensorFlow's implicit densification for a
sparse one.  (A registered parameter with an absent gradient makes
the source raise at the line-59 cast before the addition.) -/
theorem mp_regularizer_redirection :
    (∀ (f : RegFn) (w : Variable) (wval : Tensor)
      (col : List (Variable × RegFn)), w.dtype = DType.fp16 →
      mp_regularizer_wrapper f w wval col = (Option.none, col ++ [(w, f)])) ∧
    (∀ (f : RegFn) (w : Variable) (wval : Tensor)
      (col : List (Variable × RegFn)), ¬ w.dtype = DType.fp16 →
      mp_regularizer_wrapper f w wval col = (some (f.penalty wval), col)) ∧
    (∀ (baseCompute : Val → List (Grad × Variable))
      (regCollection : List (Variable × RegFn)) (loss : Val)
      (st : WrapperState) (store : Store),
      (∀ p ∈ baseCompute loss, ∀ q ∈ baseCompute loss,
        shadowName (scopeName st.scopeUses) q.2 ≠ p.2.name) →
      ∀ (i : ℕ) (g : Grad) (var : Variable) (f : RegFn),
        (baseCompute loss)[i]? = some (g, var) →
        var.dtype = DType.fp16 →
        regFind (regCollection.map (fun p => (p.1.name, p.2))) var.name = some f →
        (∀ vs, g = Grad.dense vs →
          (computeGradients baseCompute regCollection Option.none loss st
              store).1[i]? =
            some (Grad.dense (Tensor.add vs
                (f.grad (castUpTensor (Store.get store var.name)))),
              { name := shadowName (scopeName st.scopeUses) var,
                dtype := DType.fp32, trainable := false })) ∧
        (∀ vs idx shp, g = Grad.indexedSlices vs idx shp →
          (computeGradients baseCompute regCollection Option.none loss st
              store).1[i]? =
            some (Grad.dense (Tensor.add (densifyIxs vs idx shp)
                (f.grad (castUpTensor (Store.get store var.name)))),
              { name := shadowName (scopeName st.scopeUses) var,
                dtype := DType.fp32, trainable := false }))) := by
  refine ⟨?_, ?_, ?_⟩
  · intro f w wval col hd
    simp [mp_regularizer_wrapper, hd]
  · intro f w wval col hd
    simp [mp_regularizer_wrapper, hd]
  · intro baseCompute regCollection loss st store hsep i g var f h hd hrf
    have hget := (promote_get_aux
      (regCollection.map (fun p => (p.1.name, p.2)))
      (scopeName st.scopeUses) (baseCompute loss) st.fp32_to_fp16
      st.shadowsCreated store store (fun _ _ => rfl) hsep i g var h).1 hd
    rw [hrf] at hget
    constructor
    · rintro vs rfl
      simpa [castUpGrad, Grad.addDense] using hget
    · rintro vs idx shp rfl
      simpa [castUpGrad, Grad.addDense] using hget

/-- C5 witness: a float16 weight is recorded with no penalty, and
the promoted gradient of a registered float16 parameter carries the
regularizer's gradient — for a dense and for a sparse gradient. -/
theorem mp_regularizer_redirection_witness :
    mp_regularizer_wrapper
      (⟨fun _ => Val.finite 0, fun _ => [Val.finite 5]⟩ : RegFn)
      ({ name := "w:0", dtype := DType.fp16, trainable := true } : Variable)
      [Val.finite 2] [] =
      (Option.none,
        [(({ name := "w:0", dtype := DType.fp16, trainable := true } : Variable),
          (⟨fun _ => Val.finite 0, fun _ => [Val.finite 5]⟩ : RegFn))]) ∧
    ((computeGradients
      (fun _ => [(Grad.dense [Val.finite 1],
        ({ name := "w:0", dtype := DType.fp16, trainable := true } : Variable))])
      [(({ name := "w:0", dtype := DType.fp16, trainable := true } : Variable),
        (⟨fun _ => Val.finite 0, fun _ => [Val.finite 5]⟩ : RegFn))]
      Option.none (Val.finite 0) initWrapperState
      [("w:0", [Val.finite 2])]).1[0]? =
      some (Grad.dense (Tensor.add [Val.finite 1]
          ((⟨fun _ => Val.finite 0, fun _ => [Val.finite 5]⟩ : RegFn).grad
            (castUpTensor (Store.get [("w:0", [Val.finite 2])] "w:0")))),
        ({ name := shadowName (scopeName 0)
             ({ name := "w:0", dtype := DType.fp16, trainable := true } : Variable),
           dtype := DType.fp32, trainable := false } : Variable))) ∧
    ((computeGradients
      (fun _ => [(Grad.indexedSlices [Val.finite 1] [0] [1],
        ({ name := "w:0", dtype := DType.fp16, trainable := true } : Variable))])
      [(({ name := "w:0", dtype := DType.fp16, trainable := true } : Variable),
        (⟨fun _ => Val.finite 0, fun _ => [Val.finite 5]⟩ : RegFn))]
      Option.none (Val.finite 0) initWrapperState
      [("w:0", [Val.finite 2])]).1[0]? =
      some (Grad.dense (Tensor.add (densifyIxs [Val.finite 1] [0] [1])
          ((⟨fun _ => Val.finite 0, fun _ => [Val.finite 5]⟩ : RegFn).grad
            (castUpTensor (Store.get [("w:0", [Val.finite 2])] "w:0")))),
        ({ name := shadowName (scopeName 0)
             ({ name := "w:0", dtype := DType.fp16, trainable := true } : Variable),
           dtype := DType.fp32, trainable := false } : Variable))) := by
  refine ⟨?_, ?_, ?_⟩
  · exact mp_regularizer_redirection.1
      (⟨fun _ => Val.finite 0, fun _ => [Val.finite 5]⟩ : RegFn)
      ({ name := "w:0", dtype := DType.fp16, trainable := true } : Variable)
      [Val.finite 2] [] rfl
  · exact (mp_regularizer_redirection.2.2
      (fun _ => [(Grad.dense [Val.finite 1],
        ({ name := "w:0", dtype := DType.fp16, trainable := true } : Variable))])
      [(({ name := "w:0", dtype := DType.fp16, trainable := true } : Variable),
        (⟨fun _ => Val.finite 0, fun _ => [Val.finite 5]⟩ : RegFn))]
      (Val.finite 0) initWrapperState [("w:0", [Val.finite 2])]
      (by decide) 0 (Grad.dense [Val.finite 1])
      ({ name := "w:0", dtype := DType.fp16, trainable := true } : Variable)
      (⟨fun _ => Val.finite 0, fun _ => [Val.finite 5]⟩ : RegFn)
      rfl rfl rfl).1 [Val.finite 1] rfl
  · exact (mp_regularizer_redirection.2.2
      (fun _ => [(Grad.indexedSlices [Val.finite 1] [0] [1],
        ({ name := "w:0", dtype := DType.fp16, trainable := true } : Variable))])
      [(({ name := "w:0", dtype := DType.fp16, trainable := true } : Variable),
        (⟨fun _ => Val.finite 0, fun _ => [Val.finite 5]⟩ : RegFn))]
      (Val.finite 0) initWrapperState [("w:0", [Val.finite 2])]
      (by decide) 0 (Grad.indexedSlices [Val.finite 1] [0] [1])
      ({ name := "w:0", dtype := DType.fp16, trainable := true } : Variable)
      (⟨fun _ => Val.finite 0, fun _ => [Val.finite 5]⟩ : RegFn)
      rfl rfl rfl).2 [Val.finite 1] [0] [1] rfl

/-! ## Claim C7: shadow creation accounting -/

/-- C7 counterexample: running `compute_gradients` twice on the same
float16 parameter creates a second shadow (under the re-entered
scope's uniquified name) instead of reusing the first: two shadows
exist after two calls, and the second call's emitted shadow variable
differs from the first call's. -/
theorem shadow_recreated_on_second_call_cex :
    ((computeGradients
      (fun _ => [(Grad.dense [Val.finite 1],
        ({ name := "w:0", dtype := DType.fp16, trainable := true } : Variable))])
      [] Option.none (Val.finite 0)
      (computeGradients
        (fun _ => [(Grad.dense [Val.finite 1],
          ({ name := "w:0", dtype := DType.fp16, trainable := true } : Variable))])
        [] Option.none (Val.finite 0) initWrapperState
        [("w:0", [Val.finite 2])]).2.1
      (computeGradients
        (fun _ => [(Grad.dense [Val.finite 1],
          ({ name := "w:0", dtype := DType.fp16, trainable := true } : Variable))])
        [] Option.none (Val.finite 0) initWrapperState
        [("w:0", [Val.finite 2])]).2.2).2.1.shadowsCreated.length = 2) ∧
    ((computeGradients
      (fun _ => [(Grad.dense [Val.finite 1],
        ({ name := "w:0", dtype := DType.fp16, trainable := true } : Variable))])
      [] Option.none (Val.finite 0) initWrapperState
      [("w:0", [Val.finite 2])]).1.map (fun p => p.2.name) =
      ["FP32-master-copy/w:0"]) ∧
    ((computeGradients
      (fun _ => [(Grad.dense [Val.finite 1],
        ({ name := "w:0", dtype := DType.fp16, trainable := true } : Variable))])
      [] Option.none (Val.finite 0)
      (computeGradients
        (fun _ => [(Grad.dense [Val.finite 1],
          ({ name := "w:0", dtype := DType.fp16, trainable := true } : Variable))])
        [] Option.none (Val.finite 0) initWrapperState
        [("w:0", [Val.finite 2])]).2.1
      (computeGradients
        (fun _ => [(Grad.dense [Val.finite 1],
          ({ name := "w:0", dtype := DType.fp16, trainable := true } : Variable))])
        [] Option.none (Val.finite 0) initWrapperState
        [("w:0", [Val.finite 2])]).2.2).1.map (fun p => p.2.name) =
      ["FP32-master-copy_1/w:0"]) ∧
    ("FP32-master-copy_1/w:0" ≠ "FP32-master-copy/w:0") := by
  refine ⟨rfl, rfl, rfl, by decide⟩

/-- C7 (amended): one `compute_gradients` call creates exactly one
fresh shadow per float16 pair it receives — `shadowsCreated` grows by
the number of float16 pairs — and no entry is ever removed from the
Shadow Parameter Map: every key bound before the call is still bound
after it.  (A later call creates fresh shadows rather than reusing
the earlier ones, as the counterexample shows.) -/
theorem compute_gradients_shadow_accounting
    (baseCompute : Val → List (Grad × Variable))
    (regCollection : List (Variable × RegFn)) (scaler : Option ScalerState)
    (loss : Val) (st : WrapperState) (store : Store) :
    (computeGradients baseCompute regCollection scaler loss st
        store).2.1.shadowsCreated.length =
      st.shadowsCreated.length +
        (baseCompute (match scaler with
          | some sc => Val.mul loss (Val.finite sc.scale)
          | Option.none => loss)).countP
          (fun p => decide (p.2.dtype = DType.fp16)) ∧
    ∀ k : String, (mapFind st.fp32_to_fp16 k).isSome = true →
      (mapFind (computeGradients baseCompute regCollection scaler loss st
          store).2.1.fp32_to_fp16 k).isSome = true := by
  cases scaler with
  | none =>
    exact ⟨promote_created_count _ _ _ _ _ _,
      fun k h => promote_map_mono _ _ _ _ _ _ k h⟩
  | some sc =>
    exact ⟨promote_created_count _ _ _ _ _ _,
      fun k h => promote_map_mono _ _ _ _ _ _ k h⟩

/-- C7 witness: an existing map entry survives a call that promotes
one float16 pair, and exactly one shadow is created. -/
theorem compute_gradients_shadow_accounting_witness :
    ((mapFind [("FP32-master-copy/old:0",
      ({ name := "old:0", dtype := DType.fp16, trainable := true } : Variable))]
      "FP32-master-copy/old:0").isSome = true) ∧
    ((computeGradients
      (fun _ => [(Grad.dense [Val.finite 1],
        ({ name := "w:0", dtype := DType.fp16, trainable := true } : Variable))])
      [] Option.none (Val.finite 0)
      ({ fp32_to_fp16 := [("FP32-master-copy/old:0",
          ({ name := "old:0", dtype := DType.fp16, trainable := true } : Variable))],
         scopeUses := 1, shadowsCreated := [] } : WrapperState)
      [("w:0", [Val.finite 2])]).2.1.shadowsCreated.length =
      0 + ((fun _ => [(Grad.dense [Val.finite 1],
        ({ name := "w:0", dtype := DType.fp16, trainable := true } : Variable))])
        (Val.finite 0) : List (Grad × Variable)).countP
        (fun p => decide (p.2.dtype = DType.fp16))) ∧
    ((mapFind (computeGradients
      (fun _ => [(Grad.dense [Val.finite 1],
        ({ name := "w:0", dtype := DType.fp16, trainable := true } : Variable))])
      [] Option.none (Val.finite 0)
      ({ fp32_to_fp16 := [("FP32-master-copy/old:0",
          ({ name := "old:0", dtype := DType.fp16, trainable := true } : Variable))],
         scopeUses := 1, shadowsCreated := [] } : WrapperState)
      [("w:0", [Val.finite 2])]).2.1.fp32_to_fp16
      "FP32-master-copy/old:0").isSome = true) := by
  refine ⟨by decide, ?_, ?_⟩
  · exact (compute_gradients_shadow_accounting _ _ Option.none _ _ _).1
  · exact (compute_gradients_shadow_accounting _ _ Option.none _ _ _).2
      "FP32-master-copy/old:0" (by decide)

/-! ## Claim C8: a pair with no shadow entry -/

/-- C8 counterexample: a pair whose parameter looks like a shadow but
has no entry in the (empty) Shadow Parameter Map is processed without
any error outcome: the apply step completes, the base update is
applied, no copy-back happens, and the float16 working parameter is
left as it was — the inconsistency is silently tolerated, not
propagated as a fatal error. -/
theorem missing_shadow_no_error_cex :
    applyGradients
      (fun _ st => Store.set st "FP32-master-copy/w:0" [Val.finite 3])
      [] Option.none
      [(Grad.dense [Val.finite 1],
        ({ name := "FP32-master-copy/w:0", dtype := DType.fp32,
           trainable := false } : Variable))]
      [("w:0", [Val.finite 2]), ("FP32-master-copy/w:0", [Val.finite 2])] =
      ([("w:0", [Val.finite 2]), ("FP32-master-copy/w:0", [Val.finite 3])],
        Option.none) := by
  rfl

/-- C8 (amended): when the pairs' parameters have no entries in the
Shadow Parameter Map, `apply_ops_wrapper` performs no copy-back at
all — it returns exactly the base optimizer's update — and the apply
step completes normally with no error path taken. -/
theorem missing_shadow_silently_tolerated
    (baseApply : List (Grad × Variable) → Store → Store)
    (m : List (String × Variable)) (gvs : List (Grad × Variable)) (s : Store)
    (h : ∀ p ∈ gvs, mapFind m p.2.name = Option.none) :
    applyOpsWrapper baseApply m gvs s = baseApply gvs s ∧
    applyGradients baseApply m Option.none gvs s =
      (baseApply gvs s, Option.none) := by
  have hfold : ∀ (l : List (Grad × Variable)) (acc : Store),
      (∀ p ∈ l, mapFind m p.2.name = Option.none) →
      l.foldl (fun acc gv =>
        match mapFind m gv.2.name with
        | some dst => Store.set acc dst.name
            (Tensor.cast16 (Store.get (baseApply gvs s) gv.2.name))
        | Option.none => acc) acc = acc := by
    intro l
    induction l with
    | nil => intro acc _; rfl
    | cons x rest ih =>
      intro acc hl
      have hx : mapFind m x.2.name = Option.none :=
        hl x (List.mem_cons_self _ _)
      simp only [List.foldl_cons, hx]
      exact ih acc (fun p hp => hl p (List.mem_cons_of_mem _ hp))
  have h1 : applyOpsWrapper baseApply m gvs s = baseApply gvs s := by
    unfold applyOpsWrapper
    exact hfold gvs (baseApply gvs s) h
  exact ⟨h1, by unfold applyGradients; rw [h1]⟩

/-- C8 witness: the amended behaviour at the counterexample's input. -/
theorem missing_shadow_silently_tolerated_witness :
    (∀ p ∈ [(Grad.dense [Val.finite 1],
      ({ name := "FP32-master-copy/w:0", dtype := DType.fp32,
         trainable := false } : Variable))],
      mapFind [] p.2.name = Option.none) ∧
    applyOpsWrapper
      (fun _ st => Store.set st "FP32-master-copy/w:0" [Val.finite 3])
      []
      [(Grad.dense [Val.finite 1],
        ({ name := "FP32-master-copy/w:0", dtype := DType.fp32,
           trainable := false } : Variable))]
      [("w:0", [Val.finite 2]), ("FP32-master-copy/w:0", [Val.finite 2])] =
      (fun _ st => Store.set st "FP32-master-copy/w:0" [Val.finite 3])
        [(Grad.dense [Val.finite 1],
          ({ name := "FP32-master-copy/w:0", dtype := DType.fp32,
             trainable := false } : Variable))]
        [("w:0", [Val.finite 2]), ("FP32-master-copy/w:0", [Val.finite 2])] := by
  refine ⟨by decide, ?_⟩
  exact (missing_shadow_silently_tolerated
    (fun _ st => Store.set st "FP32-master-copy/w:0" [Val.finite 3])
    []
    [(Grad.dense [Val.finite 1],
      ({ name := "FP32-master-copy/w:0", dtype := DType.fp32,
         trainable := false } : Variable))]
    [("w:0", [Val.finite 2]), ("FP32-master-copy/w:0", [Val.finite 2])]
    (by decide)).1
